import Mathlib

/-!
Shallow embedding of `src/shock_cooling_curve/models/sw_rsg.py` (class `SW_RSG`),
the Sapir & Waxman (2017) red-supergiant shock-cooling model.

Machine floats are modelled by real numbers.  The elementwise numpy evaluation
over the time array `t` is modelled by `List.map` of the scalar formulas; the
constructor-fixed core mass `self.mcore` (set by the external base class) is an
explicit argument `mcore`.  The method body contains no `raise` and no
validation, so in the error-aware embedding of the entry point every call
returns `Except.ok`.
-/

namespace SW_RSG

noncomputable section

/-- Modelled from the spec: `utils.sigma`, the Stefan–Boltzmann constant "in
compatible units" (the file `utils.py` defining it is not among the sources);
cgs value, erg·cm⁻²·s⁻¹·K⁻⁴. -/
def sigma : ℝ := 5.6704e-5

/-- Source: `self.units = {'re': 'R_sun', 'me': 'M_sun', 've': '1e9 cm/s', 'off': 'days'}`,
an insertion-ordered mapping. -/
def units : List (String × String) :=
  [("re", "R_sun"), ("me", "M_sun"), ("ve", "1e9 cm/s"), ("off", "days")]

/-- The parameter order exposed to the harness: the key order of `units`. -/
def param_order : List String := units.map Prod.fst

/-- Source: `self.initial = [2, 0.5, 2, 0.01]`. -/
def initial : List ℚ := [2, 0.5, 2, 0.01]

/-- Source: `self.lower_bounds = [0.01, 0.01, 0.01, 0.001]`. -/
def lower_bounds : List ℚ := [0.01, 0.01, 0.01, 0.001]

/-- Source: `self.upper_bounds = [10, 10, 10, 0.5]`. -/
def upper_bounds : List ℚ := [10, 10, 10, 0.5]

/-- Source: `M = self.mcore + me`. -/
def M (mcore me : ℝ) : ℝ := mcore + me

/-- Source: `k = kappa / 0.34`. -/
def k (kappa : ℝ) : ℝ := kappa / 0.34

/-- Source: `fp = (me / self.mcore) ** 0.5`. -/
def fp (mcore me : ℝ) : ℝ := (me / mcore) ^ (0.5 : ℝ)

/-- Source: `vs = (ve * 1e9) / (10 ** 8.5)`. -/
def vs (ve : ℝ) : ℝ := (ve * 1e9) / (10 : ℝ) ^ (8.5 : ℝ)

/-- Source: `lterm1 = ((vs * t ** 2) / (fp * M * k)) ** (-0.086)`. -/
def lterm1 (mcore t me ve kappa : ℝ) : ℝ :=
  ((vs ve * t ^ 2) / (fp mcore me * M mcore me * k kappa)) ^ (-0.086 : ℝ)

/-- Source: `lterm2 = ((vs ** 2) * re) / k`. -/
def lterm2 (re ve kappa : ℝ) : ℝ := ((vs ve) ^ 2 * re) / k kappa

/-- Source: `num = 1.67 * t`. -/
def num (t : ℝ) : ℝ := 1.67 * t

/-- Source: `den = 19.5 * (k * me * (1 / vs)) ** (1 / 2)`. -/
def den (me ve kappa : ℝ) : ℝ :=
  19.5 * (k kappa * me * (1 / vs ve)) ^ ((1 : ℝ) / 2)

/-- Source: `lterm3 = np.exp(- ((num / den) ** 0.8))`. -/
def lterm3 (t me ve kappa : ℝ) : ℝ :=
  Real.exp (-((num t / den me ve kappa) ^ (0.8 : ℝ)))

/-- Source: `L = 1.88 * 1e42 * lterm1 * lterm2 * lterm3`, the internal
luminosity of one call, at one time `t`. -/
def L (mcore t re me ve kappa : ℝ) : ℝ :=
  1.88 * 1e42 * lterm1 mcore t me ve kappa * lterm2 re ve kappa *
    lterm3 t me ve kappa

/-- Source: `tterm1 = (((vs * t) ** 2) / (fp * M * k)) ** 0.027`. -/
def tterm1 (mcore t me ve kappa : ℝ) : ℝ :=
  ((vs ve * t) ^ 2 / (fp mcore me * M mcore me * k kappa)) ^ (0.027 : ℝ)

/-- Source: `tterm2 = ((re / k) ** 0.25) * t ** (-0.5)`. -/
def tterm2 (t re kappa : ℝ) : ℝ :=
  (re / k kappa) ^ (0.25 : ℝ) * t ^ (-0.5 : ℝ)

/-- Source: `T = 2.05 * 1e4 * tterm1 * tterm2`, the returned temperature at one
time `t`. -/
def T (mcore t re me ve kappa : ℝ) : ℝ :=
  2.05 * 1e4 * tterm1 mcore t me ve kappa * tterm2 t re kappa

/-- Source: `R = (L / (4. * np.pi * (T ** 4.) * utils.sigma)) ** 0.5`, the
returned radius at one time `t`. -/
def R (mcore t re me ve kappa : ℝ) : ℝ :=
  (L mcore t re me ve kappa /
      (4 * Real.pi * T mcore t re me ve kappa ^ (4 : ℝ) * sigma)) ^ (0.5 : ℝ)

/-- Source: the whole method `luminosity(self, t, re, me, ve, kappa=0.34)`.
Its body is straight-line arithmetic: it contains no `raise`, no `assert` and
no validation of any argument, so in this error-aware embedding every call
returns `Except.ok`.  The returned pair `(np.array([R]), np.array([T]))` is
modelled as the pair of rows. -/
def luminosity (mcore : ℝ) (t : List ℝ) (re me ve kappa : ℝ) :
    Except String (List ℝ × List ℝ) :=
  Except.ok
    (t.map fun x => R mcore x re me ve kappa,
     t.map fun x => T mcore x re me ve kappa)

/-- Source: the default argument `kappa=0.34` in the signature of `luminosity`:
a call that omits `kappa` is the same call with `kappa = 0.34`. -/
def luminosity_default (mcore : ℝ) (t : List ℝ) (re me ve : ℝ) :
    Except String (List ℝ × List ℝ) :=
  luminosity mcore t re me ve 0.34

/-- C1's claimed elementwise luminosity formula, transcribed from the claim's
words: `1.88e42 * ((vs*t^2)/(fp*M*k))^(-0.086) * (vs^2*re/k)
* exp(-((1.67*t)/(19.5*sqrt(k*me/vs)))^0.8)` with `M = mcore + me`,
`k = kappa/0.34`, `fp = sqrt(me/mcore)`, `vs = ve*1e9/10^8.5`. -/
def L_claimed (mcore t re me ve kappa : ℝ) : ℝ :=
  1.88e42 *
      ((vs ve * t ^ 2) /
          (Real.sqrt (me / mcore) * M mcore me * k kappa)) ^ (-0.086 : ℝ) *
      ((vs ve) ^ 2 * re / k kappa) *
    Real.exp
      (-((1.67 * t / (19.5 * Real.sqrt (k kappa * me / vs ve))) ^ (0.8 : ℝ)))

/-- C2's claimed elementwise temperature formula, transcribed from the claim's
words: `2.05e4 * ((vs*t)^2/(fp*M*k))^0.027 * (re/k)^0.25 * t^(-0.5)`. -/
def T_claimed (mcore t re me ve kappa : ℝ) : ℝ :=
  2.05e4 *
      ((vs ve * t) ^ 2 /
          (Real.sqrt (me / mcore) * M mcore me * k kappa)) ^ (0.027 : ℝ) *
    (re / k kappa) ^ (0.25 : ℝ) * t ^ (-0.5 : ℝ)

lemma fp_eq_sqrt (mcore me : ℝ) : fp mcore me = Real.sqrt (me / mcore) := by
  rw [fp, Real.sqrt_eq_rpow]
  norm_num

lemma den_eq_sqrt (me ve kappa : ℝ) :
    den me ve kappa = 19.5 * Real.sqrt (k kappa * me / vs ve) := by
  rw [den, Real.sqrt_eq_rpow, mul_one_div]

lemma L_eq_claimed (mcore t re me ve kappa : ℝ) :
    L mcore t re me ve kappa = L_claimed mcore t re me ve kappa := by
  rw [L, L_claimed, lterm1, lterm2, lterm3, num, fp_eq_sqrt, den_eq_sqrt]
  norm_num

lemma T_eq_claimed (mcore t re me ve kappa : ℝ) :
    T mcore t re me ve kappa = T_claimed mcore t re me ve kappa := by
  rw [T, T_claimed, tterm1, tterm2, fp_eq_sqrt]
  norm_num
  ring

/-- C1: for every time array `t` and strictly positive `re, me, ve, kappa`, the
luminosity computed inside `luminosity` equals, elementwise over `t`, the
formula `1.88e42 * ((vs*t^2)/(fp*M*k))^(-0.086) * (vs^2*re/k)
* exp(-((1.67*t)/(19.5*sqrt(k*me/vs)))^0.8)` with `M = mcore + me`,
`k = kappa/0.34`, `fp = sqrt(me/mcore)`, `vs = ve*1e9/10^8.5`. -/
theorem C1_internal_luminosity_formula (mcore re me ve kappa : ℝ)
    (t : List ℝ) (hre : 0 < re) (hme : 0 < me) (hve : 0 < ve)
    (hkappa : 0 < kappa) :
    t.map (fun x => L mcore x re me ve kappa) =
      t.map (fun x => L_claimed mcore x re me ve kappa) := by
  simp only [L_eq_claimed]

/-- Witness for C1 at `mcore = 1`, `t = [1]`, `re = 2`, `me = 0.5`, `ve = 2`,
`kappa = 0.34`. -/
theorem C1_witness :
    [(1 : ℝ)].map (fun x => L 1 x 2 0.5 2 0.34) =
      [(1 : ℝ)].map (fun x => L_claimed 1 x 2 0.5 2 0.34) :=
  C1_internal_luminosity_formula 1 2 0.5 2 0.34 [(1 : ℝ)] (by norm_num)
    (by norm_num) (by norm_num) (by norm_num)

/-- C2: for every time array `t` with strictly positive entries and strictly
positive `re, me, ve, kappa`, the temperature array returned by `luminosity`
equals, elementwise, `2.05e4 * ((vs*t)^2/(fp*M*k))^0.027 * (re/k)^0.25
* t^(-0.5)`. -/
theorem C2_temperature_formula (mcore re me ve kappa : ℝ) (t : List ℝ)
    (ht : ∀ x ∈ t, 0 < x) (hre : 0 < re) (hme : 0 < me) (hve : 0 < ve)
    (hkappa : 0 < kappa) :
    t.map (fun x => T mcore x re me ve kappa) =
      t.map (fun x => T_claimed mcore x re me ve kappa) := by
  simp only [T_eq_claimed]

/-- Witness for C2 at `mcore = 1`, `t = [1]`, `re = 2`, `me = 0.5`, `ve = 2`,
`kappa = 0.34`. -/
theorem C2_witness :
    [(1 : ℝ)].map (fun x => T 1 x 2 0.5 2 0.34) =
      [(1 : ℝ)].map (fun x => T_claimed 1 x 2 0.5 2 0.34) :=
  C2_temperature_formula 1 2 0.5 2 0.34 [(1 : ℝ)]
    (by intro x hx; rw [List.mem_singleton] at hx; rw [hx]; norm_num)
    (by norm_num) (by norm_num) (by norm_num) (by norm_num)

/-- C7: `initial`, `lower_bounds`, `upper_bounds` each have length 4, are
index-aligned with the parameter order `[re, me, ve, off]`, and satisfy
`lower_bounds[i] ≤ initial[i] ≤ upper_bounds[i]` for every `i < 4`. -/
theorem C7_bounds_spec :
    initial.length = 4 ∧ lower_bounds.length = 4 ∧ upper_bounds.length = 4 ∧
    param_order = ["re", "me", "ve", "off"] ∧
    ∀ i : ℕ,
      lower_bounds.getD i 0 ≤ initial.getD i 0 ∧
      initial.getD i 0 ≤ upper_bounds.getD i 0 := by
  refine ⟨rfl, rfl, rfl, rfl, ?_⟩
  intro i
  rcases i with _ | _ | _ | _ | n <;>
    simp [initial, lower_bounds, upper_bounds] <;> norm_num

/-- C8: calling `luminosity` with `kappa = 0.34` returns exactly what a call
with `kappa` omitted (defaulted) returns, for every other argument. -/
theorem C8_default_kappa_identity (mcore : ℝ) (t : List ℝ) (re me ve : ℝ) :
    luminosity mcore t re me ve 0.34 = luminosity_default mcore t re me ve :=
  rfl

/-- C4 counterexample: at `mcore = 1`, `t = [1]`, `re = 1`, `me = 0`, `ve = 2`,
`kappa = 0.34` — an input the claim says must raise a domain error — the call
returns normally (`Except.ok`); no error is raised. -/
theorem C4_counterexample_no_error_at_me_zero :
    (luminosity 1 [1] 1 0 2 0.34).isOk = true :=
  rfl

/-- C4 (amended): `luminosity` performs no input validation at all: every call,
with any (also zero or negative) `re, me, ve, kappa` and any `mcore`, returns
normally rather than raising a domain error. -/
theorem C4_amended_never_raises (mcore : ℝ) (t : List ℝ)
    (re me ve kappa : ℝ) :
    (luminosity mcore t re me ve kappa).isOk = true :=
  rfl

lemma sigma_pos : (0 : ℝ) < sigma := by rw [sigma]; norm_num

lemma vs_pos {ve : ℝ} (hve : 0 < ve) : 0 < vs ve := by rw [vs]; positivity

lemma k_pos {kappa : ℝ} (hk : 0 < kappa) : 0 < k kappa := by rw [k]; positivity

lemma fp_pos {mcore me : ℝ} (hmc : 0 < mcore) (hme : 0 < me) :
    0 < fp mcore me := by
  rw [fp]; positivity

lemma M_pos {mcore me : ℝ} (hmc : 0 < mcore) (hme : 0 < me) :
    0 < M mcore me := by
  rw [M]; positivity

lemma L_pos {mcore t re me ve kappa : ℝ} (hmc : 0 < mcore) (ht : 0 < t)
    (hre : 0 < re) (hme : 0 < me) (hve : 0 < ve) (hk : 0 < kappa) :
    0 < L mcore t re me ve kappa := by
  have h1 := vs_pos hve
  have h2 := k_pos hk
  have h3 := fp_pos hmc hme
  have h4 := M_pos hmc hme
  rw [L, lterm1, lterm2, lterm3]
  positivity

lemma T_pos {mcore t re me ve kappa : ℝ} (hmc : 0 < mcore) (ht : 0 < t)
    (hre : 0 < re) (hme : 0 < me) (hve : 0 < ve) (hk : 0 < kappa) :
    0 < T mcore t re me ve kappa := by
  have h1 := vs_pos hve
  have h2 := k_pos hk
  have h3 := fp_pos hmc hme
  have h4 := M_pos hmc hme
  rw [T, tterm1, tterm2]
  positivity

lemma R_pos {mcore t re me ve kappa : ℝ} (hmc : 0 < mcore) (ht : 0 < t)
    (hre : 0 < re) (hme : 0 < me) (hve : 0 < ve) (hk : 0 < kappa) :
    0 < R mcore t re me ve kappa := by
  have h1 := L_pos hmc ht hre hme hve hk
  have h2 := T_pos hmc ht hre hme hve hk
  have h3 := sigma_pos
  rw [R]
  positivity

/-- C5: for strictly positive `re, me, ve, kappa, mcore` and a time array with
strictly positive entries, every entry of both returned arrays `R` and `T` is
strictly positive. -/
theorem C5_output_positivity (mcore re me ve kappa : ℝ) (t : List ℝ)
    (hmc : 0 < mcore) (hre : 0 < re) (hme : 0 < me) (hve : 0 < ve)
    (hkappa : 0 < kappa) (ht : ∀ x ∈ t, 0 < x) :
    ∀ x ∈ t, 0 < R mcore x re me ve kappa ∧ 0 < T mcore x re me ve kappa := by
  intro x hx
  exact ⟨R_pos hmc (ht x hx) hre hme hve hkappa,
         T_pos hmc (ht x hx) hre hme hve hkappa⟩

/-- Witness for C5 at the spec's example scenario `mcore = 1`, `t = [1]`,
`re = 2`, `me = 0.5`, `ve = 2`, `kappa = 0.34`. -/
theorem C5_witness : 0 < R 1 1 2 0.5 2 0.34 ∧ 0 < T 1 1 2 0.5 2 0.34 :=
  C5_output_positivity 1 2 0.5 2 0.34 [1] (by norm_num) (by norm_num)
    (by norm_num) (by norm_num) (by norm_num)
    (by intro x hx; rw [List.mem_singleton] at hx; rw [hx]; norm_num)
    1 (List.mem_singleton.mpr rfl)

/-- C3: for every valid input, elementwise, `4π·R²·σ·T⁴ = L` where `L` is the
luminosity computed internally in the same call, and `R` is exactly the
Stefan–Boltzmann inversion `sqrt(L/(4π·T⁴·σ))`. -/
theorem C3_stefan_boltzmann_consistency (mcore re me ve kappa : ℝ)
    (t : List ℝ) (hmc : 0 < mcore) (hre : 0 < re) (hme : 0 < me)
    (hve : 0 < ve) (hkappa : 0 < kappa) (ht : ∀ x ∈ t, 0 < x) :
    ∀ x ∈ t,
      4 * Real.pi * R mcore x re me ve kappa ^ 2 * sigma *
          T mcore x re me ve kappa ^ (4 : ℝ) = L mcore x re me ve kappa ∧
      R mcore x re me ve kappa =
        Real.sqrt (L mcore x re me ve kappa /
          (4 * Real.pi * T mcore x re me ve kappa ^ (4 : ℝ) * sigma)) := by
  intro x hx
  have hxpos := ht x hx
  have hT := T_pos hmc hxpos hre hme hve hkappa
  have hL := L_pos hmc hxpos hre hme hve hkappa
  have hσ := sigma_pos
  have hden : 0 < 4 * Real.pi * T mcore x re me ve kappa ^ (4 : ℝ) * sigma :=
    by positivity
  have hbase :
      0 ≤ L mcore x re me ve kappa /
        (4 * Real.pi * T mcore x re me ve kappa ^ (4 : ℝ) * sigma) :=
    div_nonneg hL.le hden.le
  have hsq : R mcore x re me ve kappa ^ 2 =
      L mcore x re me ve kappa /
        (4 * Real.pi * T mcore x re me ve kappa ^ (4 : ℝ) * sigma) := by
    rw [R, ← Real.rpow_natCast (_ ^ (0.5 : ℝ)) 2, ← Real.rpow_mul hbase]
    norm_num
  constructor
  · rw [hsq]
    field_simp
    ring
  · rw [R, Real.sqrt_eq_rpow]
    norm_num

/-- Witness for C3 at the spec's example scenario `mcore = 1`, `t = [1]`,
`re = 2`, `me = 0.5`, `ve = 2`, `kappa = 0.34`. -/
theorem C3_witness :
    4 * Real.pi * R 1 1 2 0.5 2 0.34 ^ 2 * sigma * T 1 1 2 0.5 2 0.34 ^ (4 : ℝ)
        = L 1 1 2 0.5 2 0.34 ∧
    R 1 1 2 0.5 2 0.34 =
      Real.sqrt (L 1 1 2 0.5 2 0.34 /
        (4 * Real.pi * T 1 1 2 0.5 2 0.34 ^ (4 : ℝ) * sigma)) :=
  C3_stefan_boltzmann_consistency 1 2 0.5 2 0.34 [1] (by norm_num)
    (by norm_num) (by norm_num) (by norm_num) (by norm_num)
    (by intro x hx; rw [List.mem_singleton] at hx; rw [hx]; norm_num)
    1 (List.mem_singleton.mpr rfl)

lemma L_linear_re (mcore t me ve kappa re : ℝ) :
    L mcore t re me ve kappa = re * L mcore t 1 me ve kappa := by
  rw [L, L, lterm2, lterm2]
  ring

lemma T_scale_re {re kappa : ℝ} (hre : 0 < re) (hk : 0 < kappa)
    (mcore t me ve : ℝ) :
    T mcore t re me ve kappa = re ^ (0.25 : ℝ) * T mcore t 1 me ve kappa := by
  have hkk := k_pos hk
  rw [T, T, tterm2, tterm2]
  have h1 : re / k kappa = re * (1 / k kappa) := by ring
  rw [h1, Real.mul_rpow hre.le (by positivity : (0 : ℝ) ≤ 1 / k kappa)]
  ring

lemma T_rpow4_re {mcore t re me ve kappa : ℝ} (hmc : 0 < mcore) (ht : 0 < t)
    (hre : 0 < re) (hme : 0 < me) (hve : 0 < ve) (hk : 0 < kappa) :
    T mcore t re me ve kappa ^ (4 : ℝ) =
      re * T mcore t 1 me ve kappa ^ (4 : ℝ) := by
  have hT1 := @T_pos mcore t 1 me ve kappa hmc ht one_pos hme hve hk
  rw [T_scale_re hre hk,
      Real.mul_rpow (Real.rpow_nonneg hre.le _) hT1.le,
      ← Real.rpow_mul hre.le]
  norm_num

lemma R_indep_re {mcore t re me ve kappa : ℝ} (hmc : 0 < mcore) (ht : 0 < t)
    (hre : 0 < re) (hme : 0 < me) (hve : 0 < ve) (hk : 0 < kappa) :
    R mcore t re me ve kappa = R mcore t 1 me ve kappa := by
  rw [R, R, L_linear_re mcore t me ve kappa re,
      T_rpow4_re hmc ht hre hme hve hk]
  congr 1
  have h1 : 4 * Real.pi * (re * T mcore t 1 me ve kappa ^ (4 : ℝ)) * sigma =
      re * (4 * Real.pi * T mcore t 1 me ve kappa ^ (4 : ℝ) * sigma) := by
    ring
  rw [h1, mul_div_mul_left _ _ (ne_of_gt hre)]

/-- C9: for fixed strictly positive `t` entries, `me, ve, kappa, mcore`, the
returned radius array of `luminosity` is independent of `re`: the `R` output at
`re1 > 0` equals the `R` output at `re2 > 0`. -/
theorem C9_radius_independent_of_re (mcore me ve kappa re1 re2 : ℝ)
    (t : List ℝ) (hmc : 0 < mcore) (hme : 0 < me) (hve : 0 < ve)
    (hkappa : 0 < kappa) (hre1 : 0 < re1) (hre2 : 0 < re2)
    (ht : ∀ x ∈ t, 0 < x) :
    t.map (fun x => R mcore x re1 me ve kappa) =
      t.map (fun x => R mcore x re2 me ve kappa) := by
  apply List.map_congr_left
  intro x hx
  rw [R_indep_re hmc (ht x hx) hre1 hme hve hkappa,
      R_indep_re hmc (ht x hx) hre2 hme hve hkappa]

/-- Witness for C9 at `mcore = 1`, `t = [1]`, `me = 0.5`, `ve = 2`,
`kappa = 0.34`, `re1 = 1`, `re2 = 2`. -/
theorem C9_witness :
    [(1 : ℝ)].map (fun x => R 1 x 1 0.5 2 0.34) =
      [(1 : ℝ)].map (fun x => R 1 x 2 0.5 2 0.34) :=
  C9_radius_independent_of_re 1 0.5 2 0.34 1 2 [(1 : ℝ)] (by norm_num)
    (by norm_num) (by norm_num) (by norm_num) (by norm_num) (by norm_num)
    (by intro x hx; rw [List.mem_singleton] at hx; rw [hx]; norm_num)

/-- The `t`-free prefactor of the temperature: `T = Tcoef · t^(-0.446)`. -/
def Tcoef (mcore re me ve kappa : ℝ) : ℝ :=
  2.05 * 1e4 *
      ((vs ve) ^ 2 / (fp mcore me * M mcore me * k kappa)) ^ (0.027 : ℝ) *
    (re / k kappa) ^ (0.25 : ℝ)

lemma T_time_normal_form {mcore t re me ve kappa : ℝ} (hmc : 0 < mcore)
    (ht : 0 < t) (hme : 0 < me) (hve : 0 < ve) (hk : 0 < kappa) :
    T mcore t re me ve kappa = Tcoef mcore re me ve kappa * t ^ (-0.446 : ℝ) := by
  have hvs := vs_pos hve
  have hfp := fp_pos hmc hme
  have hM := M_pos hmc hme
  have hkk := k_pos hk
  rw [T, tterm1, tterm2, Tcoef]
  have h1 : (vs ve * t) ^ 2 / (fp mcore me * M mcore me * k kappa) =
      (vs ve) ^ 2 / (fp mcore me * M mcore me * k kappa) * t ^ 2 := by
    ring
  rw [h1, Real.mul_rpow (by positivity) (by positivity)]
  have h2 : ((t : ℝ) ^ (2 : ℕ)) ^ (0.027 : ℝ) = t ^ (0.054 : ℝ) := by
    rw [← Real.rpow_natCast t 2, ← Real.rpow_mul ht.le]
    congr 1
    push_cast
    norm_num
  rw [h2]
  have h3 : t ^ (0.054 : ℝ) * t ^ (-0.5 : ℝ) = t ^ (-0.446 : ℝ) := by
    rw [← Real.rpow_add ht]
    congr 1
    norm_num
  rw [← h3]
  ring

/-- C10: for fixed strictly positive `re, me, ve, kappa, mcore`, the returned
temperature is strictly decreasing in time over `t > 0`: `0 < t1 < t2` implies
`T(t2) < T(t1)`. -/
theorem C10_temperature_strictly_decreasing (mcore re me ve kappa t1 t2 : ℝ)
    (hmc : 0 < mcore) (hre : 0 < re) (hme : 0 < me) (hve : 0 < ve)
    (hkappa : 0 < kappa) (ht1 : 0 < t1) (h12 : t1 < t2) :
    T mcore t2 re me ve kappa < T mcore t1 re me ve kappa := by
  have ht2 : 0 < t2 := ht1.trans h12
  rw [T_time_normal_form hmc ht2 hme hve hkappa,
      T_time_normal_form hmc ht1 hme hve hkappa]
  have hc : 0 < Tcoef mcore re me ve kappa := by
    have h1 := vs_pos hve
    have h2 := fp_pos hmc hme
    have h3 := M_pos hmc hme
    have h4 := k_pos hkappa
    rw [Tcoef]
    positivity
  exact mul_lt_mul_of_pos_left
    (Real.rpow_lt_rpow_of_neg ht1 h12 (by norm_num)) hc

/-- Witness for C10 at `mcore = 1`, `re = 2`, `me = 0.5`, `ve = 2`,
`kappa = 0.34`, `t1 = 1`, `t2 = 2`. -/
theorem C10_witness : T 1 2 2 0.5 2 0.34 < T 1 1 2 0.5 2 0.34 :=
  C10_temperature_strictly_decreasing 1 2 0.5 2 0.34 1 2 (by norm_num)
    (by norm_num) (by norm_num) (by norm_num) (by norm_num) (by norm_num)
    (by norm_num)

/-- The `kappa`-free prefactor of the luminosity:
`L = Acoef · k^(-0.914) · exp(-(ccoef · k^(-0.4)))`. -/
def Acoef (mcore t re me ve : ℝ) : ℝ :=
  1.88 * 1e42 *
      ((vs ve * t ^ 2) / (fp mcore me * M mcore me)) ^ (-0.086 : ℝ) *
    ((vs ve) ^ 2 * re)

/-- The `kappa`-free factor of the exponential suppression argument:
`(num/den)^0.8 = ccoef · k^(-0.4)`. -/
def ccoef (t me ve : ℝ) : ℝ :=
  (1.67 * t / (19.5 * (me * (1 / vs ve)) ^ ((1 : ℝ) / 2))) ^ (0.8 : ℝ)

lemma lterm1_split {mcore t me ve kappa : ℝ} (hmc : 0 < mcore) (ht : 0 < t)
    (hme : 0 < me) (hve : 0 < ve) (hk : 0 < kappa) :
    lterm1 mcore t me ve kappa =
      ((vs ve * t ^ 2) / (fp mcore me * M mcore me)) ^ (-0.086 : ℝ) *
        k kappa ^ (0.086 : ℝ) := by
  have hvs := vs_pos hve
  have hfp := fp_pos hmc hme
  have hM := M_pos hmc hme
  have hkk := k_pos hk
  rw [lterm1]
  have h1 : (vs ve * t ^ 2) / (fp mcore me * M mcore me * k kappa) =
      (vs ve * t ^ 2) / (fp mcore me * M mcore me) * (k kappa)⁻¹ := by
    ring
  rw [h1, Real.mul_rpow (by positivity) (by positivity)]
  congr 1
  rw [← Real.rpow_neg_one (k kappa), ← Real.rpow_mul hkk.le]
  congr 1
  norm_num

lemma lterm2_split (re ve kappa : ℝ) :
    lterm2 re ve kappa = (vs ve) ^ 2 * re * k kappa ^ (-1 : ℝ) := by
  rw [lterm2, Real.rpow_neg_one]
  ring

lemma lterm3_split {t me ve kappa : ℝ} (ht : 0 < t) (hme : 0 < me)
    (hve : 0 < ve) (hk : 0 < kappa) :
    (num t / den me ve kappa) ^ (0.8 : ℝ) =
      ccoef t me ve * k kappa ^ (-0.4 : ℝ) := by
  have hvs := vs_pos hve
  have hkk := k_pos hk
  rw [num, den, ccoef]
  have hsplit : (k kappa * me * (1 / vs ve)) ^ ((1 : ℝ) / 2) =
      k kappa ^ ((1 : ℝ) / 2) * (me * (1 / vs ve)) ^ ((1 : ℝ) / 2) := by
    rw [mul_assoc, Real.mul_rpow hkk.le (by positivity)]
  rw [hsplit]
  have h2 : 1.67 * t /
        (19.5 * (k kappa ^ ((1 : ℝ) / 2) * (me * (1 / vs ve)) ^ ((1 : ℝ) / 2))) =
      1.67 * t / (19.5 * (me * (1 / vs ve)) ^ ((1 : ℝ) / 2)) *
        (k kappa ^ ((1 : ℝ) / 2))⁻¹ := by
    ring
  rw [h2, Real.mul_rpow (by positivity) (by positivity)]
  congr 1
  rw [← Real.rpow_neg_one (k kappa ^ ((1 : ℝ) / 2)), ← Real.rpow_mul hkk.le,
    ← Real.rpow_mul hkk.le]
  congr 1
  norm_num

lemma L_kappa_normal_form {mcore t me ve kappa : ℝ} (hmc : 0 < mcore)
    (ht : 0 < t) (hme : 0 < me) (hve : 0 < ve) (hk : 0 < kappa) (re : ℝ) :
    L mcore t re me ve kappa =
      Acoef mcore t re me ve * k kappa ^ (-0.914 : ℝ) *
        Real.exp (-(ccoef t me ve * k kappa ^ (-0.4 : ℝ))) := by
  have hkk := k_pos hk
  rw [L, lterm1_split hmc ht hme hve hk, lterm2_split, lterm3,
    lterm3_split ht hme hve hk, Acoef]
  have hcomb : k kappa ^ (0.086 : ℝ) * k kappa ^ (-1 : ℝ) =
      k kappa ^ (-0.914 : ℝ) := by
    rw [← Real.rpow_add hkk]
    congr 1
    norm_num
  rw [← hcomb]
  ring

lemma Acoef_pos {mcore t re me ve : ℝ} (hmc : 0 < mcore) (ht : 0 < t)
    (hre : 0 < re) (hme : 0 < me) (hve : 0 < ve) :
    0 < Acoef mcore t re me ve := by
  have hvs := vs_pos hve
  have hfp := fp_pos hmc hme
  have hM := M_pos hmc hme
  rw [Acoef]
  positivity

lemma ccoef_pos {t me ve : ℝ} (ht : 0 < t) (hme : 0 < me) (hve : 0 < ve) :
    0 < ccoef t me ve := by
  have hvs := vs_pos hve
  rw [ccoef]
  positivity

/-- The analytic heart of the opacity claim: `x ↦ A·x^(-0.914)·exp(-c·x^(-0.4))`
is strictly decreasing from `κa` to `κb > κa` provided `c·κa^(-0.4) ≤ 2.285`
(`2.285 = 0.914/0.4`); without that bound it can increase. -/
lemma exp_rpow_anti {A c κa κb : ℝ} (hA : 0 < A) (hc : 0 < c) (hκa : 0 < κa)
    (hab : κa < κb) (hcond : c * κa ^ (-0.4 : ℝ) ≤ 2.285) :
    A * κb ^ (-0.914 : ℝ) * Real.exp (-(c * κb ^ (-0.4 : ℝ))) <
      A * κa ^ (-0.914 : ℝ) * Real.exp (-(c * κa ^ (-0.4 : ℝ))) := by
  have hκb : 0 < κb := hκa.trans hab
  have hlog : Real.log κa < Real.log κb := Real.log_lt_log hκa hab
  have hxpos : (0 : ℝ) < 0.4 * (Real.log κb - Real.log κa) := by linarith
  have hxne : -(0.4 * (Real.log κb - Real.log κa)) ≠ 0 :=
    (neg_lt_zero.2 hxpos).ne
  have hexp1 : 1 - Real.exp (-(0.4 * (Real.log κb - Real.log κa))) <
      0.4 * (Real.log κb - Real.log κa) := by
    have h := Real.add_one_lt_exp hxne
    linarith
  have hexp2 : 0 < 1 - Real.exp (-(0.4 * (Real.log κb - Real.log κa))) := by
    have h := Real.exp_lt_exp.mpr (neg_lt_zero.2 hxpos)
    rw [Real.exp_zero] at h
    linarith
  have hbsplit : κb ^ (-0.4 : ℝ) =
      κa ^ (-0.4 : ℝ) * Real.exp (-(0.4 * (Real.log κb - Real.log κa))) := by
    rw [Real.rpow_def_of_pos hκa, Real.rpow_def_of_pos hκb, ← Real.exp_add]
    congr 1
    ring
  have hkey : c * κa ^ (-0.4 : ℝ) - c * κb ^ (-0.4 : ℝ) <
      0.914 * (Real.log κb - Real.log κa) := by
    rw [hbsplit]
    have e2 : c * κa ^ (-0.4 : ℝ) *
          (1 - Real.exp (-(0.4 * (Real.log κb - Real.log κa)))) ≤
        2.285 * (1 - Real.exp (-(0.4 * (Real.log κb - Real.log κa)))) :=
      mul_le_mul_of_nonneg_right hcond hexp2.le
    nlinarith [e2, hexp1]
  rw [Real.rpow_def_of_pos hκb (-0.914 : ℝ), Real.rpow_def_of_pos hκa (-0.914 : ℝ),
    mul_assoc A, mul_assoc A, ← Real.exp_add, ← Real.exp_add]
  apply mul_lt_mul_of_pos_left _ hA
  exact Real.exp_lt_exp.mpr (by linarith [hkey])

/-- C6 (amended): holding `t, re, me, ve, mcore` fixed and strictly positive,
increasing `kappa` strictly decreases the internal luminosity `L(t)` provided
the argument of the exponential suppression term at the smaller opacity,
`((1.67·t)/(19.5·sqrt(k·me/vs)))^0.8`, is at most `2.285 = 0.914/0.4`; without
that bound the monotonicity fails (see the counterexample). -/
theorem C6_amended_opacity_decreasing (mcore t re me ve kappa1 kappa2 : ℝ)
    (hmc : 0 < mcore) (ht : 0 < t) (hre : 0 < re) (hme : 0 < me)
    (hve : 0 < ve) (hk1 : 0 < kappa1) (h12 : kappa1 < kappa2)
    (hsmall : (num t / den me ve kappa1) ^ (0.8 : ℝ) ≤ 2.285) :
    L mcore t re me ve kappa2 < L mcore t re me ve kappa1 := by
  have hk2 : 0 < kappa2 := hk1.trans h12
  rw [L_kappa_normal_form hmc ht hme hve hk2 re,
      L_kappa_normal_form hmc ht hme hve hk1 re]
  apply exp_rpow_anti (Acoef_pos hmc ht hre hme hve) (ccoef_pos ht hme hve)
    (k_pos hk1) (by rw [k, k]; exact div_lt_div_of_pos_right h12 (by norm_num))
  rw [← lterm3_split ht hme hve hk1]
  exact hsmall

lemma vs_unit : vs ((10 : ℝ) ^ (8.5 : ℝ) / 1e9) = 1 := by
  rw [vs, div_mul_cancel₀ _ (by norm_num : (1e9 : ℝ) ≠ 0)]
  exact div_self (ne_of_gt (Real.rpow_pos_of_pos (by norm_num) _))

/-- Witness for C6's amended theorem at `mcore = 1`, `t = 19.5/1.67`, `re = 1`,
`me = 1`, `ve = 10^8.5/1e9` (so `vs = 1`), `kappa1 = 0.34`, `kappa2 = 0.68`:
there the exponential argument at `kappa1` is `1 ≤ 2.285`. -/
theorem C6_amended_witness :
    L 1 (19.5 / 1.67) 1 1 ((10 : ℝ) ^ (8.5 : ℝ) / 1e9) 0.68 <
      L 1 (19.5 / 1.67) 1 1 ((10 : ℝ) ^ (8.5 : ℝ) / 1e9) 0.34 :=
  C6_amended_opacity_decreasing 1 (19.5 / 1.67) 1 1
    ((10 : ℝ) ^ (8.5 : ℝ) / 1e9) 0.34 0.68 (by norm_num) (by norm_num)
    (by norm_num) (by norm_num) (by positivity) (by norm_num) (by norm_num)
    (by rw [num, den, vs_unit, k]; norm_num [Real.one_rpow])

/-- C6 counterexample: at `mcore = 1`, `t = 19.5·2^1.25/1.67`, `re = 1`,
`me = 1`, `ve = 10^8.5/1e9` (so `vs = 1`) the claim's hypotheses hold with
`kappa1 = 0.34/32 < kappa2 = 0.34`, yet the internal luminosity strictly
INCREASES from `kappa1` to `kappa2`, contradicting the claimed strict
decrease. -/
theorem C6_counterexample :
    (0 : ℝ) < 19.5 * (2 : ℝ) ^ (1.25 : ℝ) / 1.67 ∧
    (0 : ℝ) < (10 : ℝ) ^ (8.5 : ℝ) / 1e9 ∧
    (0 : ℝ) < 0.34 / 32 ∧ (0.34 / 32 : ℝ) < 0.34 ∧
    L 1 (19.5 * (2 : ℝ) ^ (1.25 : ℝ) / 1.67) 1 1
        ((10 : ℝ) ^ (8.5 : ℝ) / 1e9) (0.34 / 32) <
      L 1 (19.5 * (2 : ℝ) ^ (1.25 : ℝ) / 1.67) 1 1
        ((10 : ℝ) ^ (8.5 : ℝ) / 1e9) 0.34 := by
  have ht : (0 : ℝ) < 19.5 * (2 : ℝ) ^ (1.25 : ℝ) / 1.67 := by positivity
  have hve : (0 : ℝ) < (10 : ℝ) ^ (8.5 : ℝ) / 1e9 := by positivity
  refine ⟨ht, hve, by norm_num, by norm_num, ?_⟩
  rw [L_kappa_normal_form (by norm_num) ht (by norm_num) hve (by norm_num) 1,
      L_kappa_normal_form (by norm_num) ht (by norm_num) hve (by norm_num) 1]
  have hA : 0 < Acoef 1 (19.5 * (2 : ℝ) ^ (1.25 : ℝ) / 1.67) 1 1
      ((10 : ℝ) ^ (8.5 : ℝ) / 1e9) :=
    Acoef_pos (by norm_num) ht (by norm_num) (by norm_num) hve
  have h2pow : ∀ y z : ℝ, ((2 : ℝ) ^ y) ^ z = (2 : ℝ) ^ (y * z) := fun y z =>
    (Real.rpow_mul (by norm_num) y z).symm
  have hccoef : ccoef (19.5 * (2 : ℝ) ^ (1.25 : ℝ) / 1.67) 1
      ((10 : ℝ) ^ (8.5 : ℝ) / 1e9) = 2 := by
    have hbase : 1.67 * (19.5 * (2 : ℝ) ^ (1.25 : ℝ) / 1.67) /
        (19.5 * ((1 : ℝ) * (1 / 1)) ^ ((1 : ℝ) / 2)) = (2 : ℝ) ^ (1.25 : ℝ) := by
      rw [show ((1 : ℝ) * (1 / 1)) = 1 by norm_num, Real.one_rpow, mul_one]
      field_simp
    rw [ccoef, vs_unit, hbase, h2pow,
      show (1.25 : ℝ) * 0.8 = 1 by norm_num, Real.rpow_one]
  have hk1 : k (0.34 / 32) = 1 / 32 := by rw [k]; norm_num
  have hk2 : k 0.34 = 1 := by rw [k]; norm_num
  have h32 : (1 / 32 : ℝ) = (2 : ℝ) ^ (-5 : ℝ) := by
    rw [Real.rpow_neg (by norm_num : (0 : ℝ) ≤ 2),
      show ((5 : ℝ)) = ((5 : ℕ) : ℝ) by norm_num, Real.rpow_natCast]
    norm_num
  have h32a : (1 / 32 : ℝ) ^ (-0.4 : ℝ) = 4 := by
    rw [h32, h2pow, show ((-5 : ℝ) * (-0.4 : ℝ)) = ((2 : ℕ) : ℝ) by norm_num,
      Real.rpow_natCast]
    norm_num
  have h32b : (1 / 32 : ℝ) ^ (-0.914 : ℝ) = Real.exp (Real.log 2 * 4.57) := by
    rw [h32, h2pow, Real.rpow_def_of_pos (by norm_num : (0 : ℝ) < 2)]
    norm_num
  rw [hccoef, hk1, hk2, Real.one_rpow, Real.one_rpow, h32a, h32b]
  have key : Real.exp (Real.log 2 * 4.57) * Real.exp (-(2 * (4 : ℝ))) <
      1 * Real.exp (-(2 * (1 : ℝ))) := by
    rw [one_mul, ← Real.exp_add, Real.exp_lt_exp]
    have hl2 := Real.log_two_lt_d9
    linarith
  calc
    Acoef 1 (19.5 * (2 : ℝ) ^ (1.25 : ℝ) / 1.67) 1 1
          ((10 : ℝ) ^ (8.5 : ℝ) / 1e9) * Real.exp (Real.log 2 * 4.57) *
        Real.exp (-(2 * (4 : ℝ))) =
        Acoef 1 (19.5 * (2 : ℝ) ^ (1.25 : ℝ) / 1.67) 1 1
            ((10 : ℝ) ^ (8.5 : ℝ) / 1e9) *
          (Real.exp (Real.log 2 * 4.57) * Real.exp (-(2 * (4 : ℝ)))) := by
      ring
    _ < Acoef 1 (19.5 * (2 : ℝ) ^ (1.25 : ℝ) / 1.67) 1 1
            ((10 : ℝ) ^ (8.5 : ℝ) / 1e9) *
          (1 * Real.exp (-(2 * (1 : ℝ)))) := mul_lt_mul_of_pos_left key hA
    _ = Acoef 1 (19.5 * (2 : ℝ) ^ (1.25 : ℝ) / 1.67) 1 1
            ((10 : ℝ) ^ (8.5 : ℝ) / 1e9) * 1 *
          Real.exp (-(2 * (1 : ℝ))) := by
      ring

end

end SW_RSG
